import Mathlib

set_option autoImplicit false
set_option maxRecDepth 20000

/-!
Verification of the music-server scanning / metadata-extraction pipeline
(`Player/app/music_server.py`): a shallow embedding of the `MusicScanner`
class, the `/api/search` handler and the surrounding catalog logic, together
with proofs of the specified properties.

Python strings are modelled as `List Char`, bytes as `Nat` (each `< 256`),
filesystem paths as lists of components, and the external `mutagen` library's
result as explicit data carried by the modelled filesystem.
-/

namespace MusicServer

/-- Python `str`, modelled as a list of characters. -/
abbrev Str := List Char

/-- Python `str.lower()` (ASCII case folding, as used on tag keys and queries). -/
def lowerStr (s : Str) : Str := s.map Char.toLower

/-- Does `p` occur as a leading segment of `s`? -/
def startsWithStr : Str → Str → Bool
  | [], _ => true
  | _ :: _, [] => false
  | p :: ps, c :: cs => if p = c then startsWithStr ps cs else false

/-- Python's `pat in s` substring test: `containsStr pat s`. -/
def containsStr (pat : Str) : Str → Bool
  | [] => startsWithStr pat []
  | c :: rest => startsWithStr pat (c :: rest) || containsStr pat rest

/-! ### MD5 (as used by `hashlib.md5(str(file_path).encode()).hexdigest()`) -/

/-- Truncation to a 32-bit machine word. -/
def w32 (n : Nat) : Nat := n % 4294967296

/-- 32-bit left rotation (input assumed `< 2^32`). -/
def rotl (x s : Nat) : Nat := w32 (x * 2 ^ s + x / 2 ^ (32 - s))

/-- 32-bit bitwise complement (input assumed `< 2^32`). -/
def mnot (x : Nat) : Nat := 4294967295 - x

/-- The 64 MD5 sine-derived round constants. -/
def md5K : List Nat :=
  [3614090360, 3905402710, 606105819, 3250441966, 4118548399, 1200080426,
   2821735955, 4249261313, 1770035416, 2336552879, 4294925233, 2304563134,
   1804603682, 4254626195, 2792965006, 1236535329, 4129170786, 3225465664,
   643717713, 3921069994, 3593408605, 38016083, 3634488961, 3889429448,
   568446438, 3275163606, 4107603335, 1163531501, 2850285829, 4243563512,
   1735328473, 2368359562, 4294588738, 2272392833, 1839030562, 4259657740,
   2763975236, 1272893353, 4139469664, 3200236656, 681279174, 3936430074,
   3572445317, 76029189, 3654602809, 3873151461, 530742520, 3299628645,
   4096336452, 1126891415, 2878612391, 4237533241, 1700485571, 2399980690,
   4293915773, 2240044497, 1873313359, 4264355552, 2734768916, 1309151649,
   4149444226, 3174756917, 718787259, 3951481745]

/-- The 64 MD5 per-round shift amounts. -/
def md5S : List Nat :=
  [7, 12, 17, 22, 7, 12, 17, 22, 7, 12, 17, 22, 7, 12, 17, 22,
   5, 9, 14, 20, 5, 9, 14, 20, 5, 9, 14, 20, 5, 9, 14, 20,
   4, 11, 16, 23, 4, 11, 16, 23, 4, 11, 16, 23, 4, 11, 16, 23,
   6, 10, 15, 21, 6, 10, 15, 21, 6, 10, 15, 21, 6, 10, 15, 21]

/-- `k` little-endian bytes of `n`. -/
def toLEBytes : Nat → Nat → List Nat
  | 0, _ => []
  | k + 1, n => n % 256 :: toLEBytes k (n / 256)

/-- Read a 32-bit little-endian word off the front of a byte list. -/
def leWord (bs : List Nat) : Nat :=
  bs.getD 0 0 + 256 * bs.getD 1 0 + 65536 * bs.getD 2 0 + 16777216 * bs.getD 3 0

/-- One MD5 round (round index `i`, message block `block`). -/
def md5Round (block : List Nat) (st : Nat × Nat × Nat × Nat) (i : Nat) :
    Nat × Nat × Nat × Nat :=
  let a := st.1; let b := st.2.1; let c := st.2.2.1; let d := st.2.2.2
  let fg : Nat × Nat :=
    if i < 16 then ((b &&& c) ||| (mnot b &&& d), i)
    else if i < 32 then ((d &&& b) ||| (mnot d &&& c), (5 * i + 1) % 16)
    else if i < 48 then (b ^^^ c ^^^ d, (3 * i + 5) % 16)
    else (c ^^^ (b ||| mnot d), 7 * i % 16)
  let tmp := w32 (a + fg.1 + md5K.getD i 0 + leWord (block.drop (4 * fg.2)))
  (d, w32 (b + rotl tmp (md5S.getD i 0)), b, c)

/-- Process one 64-byte block. -/
def md5Block (st : Nat × Nat × Nat × Nat) (block : List Nat) :
    Nat × Nat × Nat × Nat :=
  let r := (List.range 64).foldl (md5Round block) st
  (w32 (st.1 + r.1), w32 (st.2.1 + r.2.1), w32 (st.2.2.1 + r.2.2.1),
   w32 (st.2.2.2 + r.2.2.2))

/-- MD5 padding: a 1-bit, zeros to 56 mod 64, then the 64-bit bit length. -/
def md5Pad (msg : List Nat) : List Nat :=
  msg ++ 128 :: (List.replicate ((119 - msg.length % 64) % 64) 0
    ++ toLEBytes 8 (8 * msg.length))

/-- Split into 64-byte chunks (first argument is recursion fuel). -/
def chunks64 : Nat → List Nat → List (List Nat)
  | 0, _ => []
  | _ + 1, [] => []
  | fuel + 1, l => l.take 64 :: chunks64 fuel (l.drop 64)

/-- The MD5 initial state. -/
def md5Init : Nat × Nat × Nat × Nat :=
  (1732584193, 4023233417, 2562383102, 271733878)

/-- Serialize the final state as 16 little-endian digest bytes. -/
def stBytes (st : Nat × Nat × Nat × Nat) : List Nat :=
  toLEBytes 4 st.1 ++ toLEBytes 4 st.2.1 ++ toLEBytes 4 st.2.2.1
    ++ toLEBytes 4 st.2.2.2

/-- The 16-byte MD5 digest of a byte string. -/
def md5Bytes (msg : List Nat) : List Nat :=
  stBytes ((chunks64 (md5Pad msg).length (md5Pad msg)).foldl md5Block md5Init)

/-- The sixteen lowercase hex digits. -/
def hexChars : Str := "0123456789abcdef".data

/-- The hex digit for a value `< 16`. -/
def hexDigit (n : Nat) : Char := hexChars.getD n '0'

/-- Two hex characters of one byte. -/
def byteHex (b : Nat) : Str := [hexDigit (b / 16), hexDigit (b % 16)]

/-- `hashlib.md5(...).hexdigest()`: the 32-character lowercase hex digest. -/
def md5Hex (msg : List Nat) : Str := ((md5Bytes msg).map byteHex) |>.flatten

/-- UTF-8 encoding of one character. -/
def utf8Char (c : Char) : List Nat :=
  let n := c.toNat
  if n < 128 then [n]
  else if n < 2048 then [192 + n / 64, 128 + n % 64]
  else if n < 65536 then [224 + n / 4096, 128 + n / 64 % 64, 128 + n % 64]
  else [240 + n / 262144, 128 + n / 4096 % 64, 128 + n / 64 % 64, 128 + n % 64]

/-- Python `str.encode()`: UTF-8 bytes of a string. -/
def utf8Str (s : Str) : List Nat := (s.map utf8Char) |>.flatten

/-! ### Paths (`pathlib.Path`, POSIX semantics) -/

/-- An absolute filesystem path, as its list of components below the root. -/
abbrev PathC := List Str

/-- Python `str(path)` for an absolute POSIX path. -/
def pathStr (p : PathC) : Str := '/' :: List.intercalate ['/'] p

/-- `Path.name`: the final component (empty for the root). -/
def pathName (p : PathC) : Str := p.getLast?.getD []

/-- Index of the last dot of a file name, if any. -/
def lastDotIdx (name : Str) : Option Nat :=
  ((List.range name.length).filter fun i => name.getD i ' ' = '.').getLast?

/-- `Path.suffix`: the extension of the final component, dot included
(pathlib keeps it empty unless the last dot is interior). -/
def suffixOf (name : Str) : Str :=
  match lastDotIdx name with
  | some i => if 0 < i ∧ i + 1 < name.length then name.drop i else []
  | none => []

/-- `Path.stem`: the final component without its suffix. -/
def stemOf (name : Str) : Str :=
  match lastDotIdx name with
  | some i => if 0 < i ∧ i + 1 < name.length then name.take i else name
  | none => name

/-- Is `base` an initial segment of the component list `p`? -/
def pathUnder : PathC → PathC → Bool
  | [], _ => true
  | _ :: _, [] => false
  | a :: as, b :: bs => if a = b then pathUnder as bs else false

/-- The configured music root (`MUSIC_DIRECTORY`, default `/media/music`). -/
def MUSIC_DIR : PathC := ["media".data, "music".data]

/-- `Path.relative_to(base)`: the remaining components, or `none` (a raised
`ValueError`) when the path does not lie under `base`. -/
def relativeTo (p base : PathC) : Option PathC :=
  if pathUnder base p then some (p.drop base.length) else none

/-- `str` of a relative POSIX path (`"."` for the empty relative path). -/
def relStr (r : PathC) : Str :=
  match r with
  | [] => ['.']
  | _ => List.intercalate ['/'] r

/-- `MusicScanner.SUPPORTED_FORMATS`. -/
def SUPPORTED_FORMATS : List Str :=
  [".mp3".data, ".mp4".data, ".m4a".data, ".flac".data, ".ogg".data, ".wav".data]

/-! ### The mutagen view of one file, as data -/

/-- A tag value as seen through `str(...)`: either a scalar object or a
multi-valued list (MP4 / Vorbis comments). -/
inductive TagVal where
  | scalar (s : Str)
  | multi (l : List Str)
deriving DecidableEq

/-- An ordered tag mapping (`tags.items()` insertion order). -/
abbrev Tags := List (Str × TagVal)

/-- Which concrete `mutagen` class the parsed object is an instance of. -/
inductive AudioKind where
  | mp3
  | mp4
  | flac
  | other
deriving DecidableEq

/-- The stream-info object; `length?` is its `length` attribute if present. -/
structure AudioInfo where
  length? : Option ℚ
deriving DecidableEq

/-- A parsed audio object: class, optional truthy `info`, optional `tags`. -/
structure AudioFile where
  kind : AudioKind
  info? : Option AudioInfo
  tags? : Option Tags
deriving DecidableEq

/-- The outcome of `mutagen.File(path)`: a raised error, `None` (format not
recognized), or a parsed audio object. -/
inductive MutagenResult where
  | err
  | noFormat
  | file (af : AudioFile)
deriving DecidableEq

/-- One file of the modelled filesystem: its path, what `mutagen.File` yields
on it, and its stat size (`none` when `stat()` raises). -/
structure FSFile where
  path : PathC
  mutagen : MutagenResult
  size? : Option Nat
deriving DecidableEq

/-- The modelled filesystem: existing directories and regular files. -/
structure FileSystem where
  dirs : List PathC
  files : List FSFile

/-! ### Tag extraction (`_get_id3_tag` / `_get_mp4_tag` / `_get_vorbis_tag`,
and the generic fallback loop) -/

/-- `str(value[0]) if isinstance(value, list) and value else str(value)`:
`str` of an empty Python list is `"[]"`. -/
def namedValStr : TagVal → Str
  | .scalar s => s
  | .multi (x :: _) => x
  | .multi [] => ['[', ']']

/-- First binding of a key in an ordered tag mapping. -/
def lookupTag : Tags → Str → Option TagVal
  | [], _ => none
  | (k, v) :: rest, key => if k = key then some v else lookupTag rest key

/-- The shared body of the three `_get_*_tag` helpers:
`if audio_file.tags and tag_name in audio_file.tags: ...` — a `None` or
empty (falsy) tag mapping yields `None`. -/
def getTag (tags? : Option Tags) (key : Str) : Option Str :=
  match tags? with
  | none => none
  | some [] => none
  | some tags => (lookupTag tags key).map namedValStr

/-- Python `x or default` on an optional tag string: the empty string is
falsy and falls back to the default. -/
def orDefault (v : Option Str) (d : Str) : Str :=
  match v with
  | none => d
  | some s => if s = [] then d else s

/-- The fixed tag keys of the three named container families
(`TIT2`/`TPE1`/`TALB`, `©nam`/`©ART`/`©alb`, `TITLE`/`ARTIST`/`ALBUM`);
`none` for the unclassified fourth kind. -/
def namedKeys : AudioKind → Option (Str × Str × Str)
  | .mp3 => some ("TIT2".data, "TPE1".data, "TALB".data)
  | .mp4 => some (Char.ofNat 169 :: "nam".data, Char.ofNat 169 :: "ART".data,
      Char.ofNat 169 :: "alb".data)
  | .flac => some ("TITLE".data, "ARTIST".data, "ALBUM".data)
  | .other => none

/-- `str(value[0] if isinstance(value, list) else value)` in the generic
loop: indexing an empty list raises (`IndexError`). -/
def genValStr : TagVal → Except Unit Str
  | .scalar s => .ok s
  | .multi (x :: _) => .ok x
  | .multi [] => .error ()

/-- The three fields the generic loop can assign. -/
inductive GField where
  | title
  | artist
  | album
deriving DecidableEq

/-- The `if/elif` chain of the generic loop: which field (if any) a tag key
selects, scanning the lowercased key for the substrings `"title"`,
`"artist"`, `"album"` in that order. -/
def genFieldOf (k : Str) : Option GField :=
  let kl := lowerStr k
  if containsStr "title".data kl then some .title
  else if containsStr "artist".data kl then some .artist
  else if containsStr "album".data kl then some .album
  else none

/-- One iteration of the generic fallback loop over `tags.items()`:
assign (and so overwrite) the field selected by the key, if any. -/
def genericStep (st : Str × Str × Str) (kv : Str × TagVal) :
    Except Unit (Str × Str × Str) :=
  match genFieldOf kv.1 with
  | some .title => (genValStr kv.2).map fun v => (v, st.2.1, st.2.2)
  | some .artist => (genValStr kv.2).map fun v => (st.1, v, st.2.2)
  | some .album => (genValStr kv.2).map fun v => (st.1, st.2.1, v)
  | none => .ok st

/-- The whole generic fallback loop. -/
def applyGeneric (tags : Tags) (t0 a0 b0 : Str) :
    Except Unit (Str × Str × Str) :=
  tags.foldlM genericStep (t0, a0, b0)

/-- The `isinstance` dispatch of `_extract_track_info`: the three named
families read their fixed keys, anything else runs the generic loop over
`audio_file.tags or {}`. -/
def applyTags (af : AudioFile) (t0 a0 b0 : Str) :
    Except Unit (Str × Str × Str) :=
  match namedKeys af.kind with
  | some (kt, ka, kb) =>
      .ok (orDefault (getTag af.tags? kt) t0, orDefault (getTag af.tags? ka) a0,
        orDefault (getTag af.tags? kb) b0)
  | none => applyGeneric (af.tags?.getD []) t0 a0 b0

/-! ### Rounding (`round(duration, 2)`) and duration -/

/-- Python `round(q, 2)` scaled to hundredths: round half to even of
`100 * q`, computed on the numerator and denominator (so `f` is the floor
of `100 * q` and `r2` compares twice its fractional part against one). -/
def rnd2Int (q : ℚ) : ℤ :=
  let n := 100 * q.num
  let d := (q.den : ℤ)
  let f := Int.ediv n d
  let r2 := 2 * (n - d * f)
  if r2 < d then f
  else if d < r2 then f + 1
  else if f % 2 = 0 then f else f + 1

/-- Python `round(q, 2)`. -/
def round2 (q : ℚ) : ℚ := (rnd2Int q : ℚ) / 100

/-- `getattr(audio_file.info, 'length', 0)` guarded by
`hasattr(audio_file, 'info') and audio_file.info`, and `0` when
`mutagen.File` returned `None`. -/
def fileDuration : MutagenResult → ℚ
  | .file af =>
      match af.info? with
      | some i => i.length?.getD 0
      | none => 0
  | _ => 0

/-- The duration metadata the container exposes, if any. -/
def durationMeta : MutagenResult → Option ℚ
  | .file af => af.info?.bind fun i => i.length?
  | _ => none

/-! ### `_extract_track_info` and `scan_directory` -/

/-- The literal placeholder for a missing artist tag. -/
def unknownArtist : Str := "Unknown Artist".data

/-- The literal placeholder for a missing album tag. -/
def unknownAlbum : Str := "Unknown Album".data

/-- One extracted track record (the returned dict). -/
structure Track where
  id : Str
  title : Str
  artist : Str
  album : Str
  filename : Str
  path : Str
  relativePath : Str
  duration : ℚ
  size : Nat
  format : Str
deriving DecidableEq

/-- The tag-resolution step: named-family dispatch when an audio object was
parsed, otherwise the step-2 defaults survive untouched. -/
def extractTags (m : MutagenResult) (t0 a0 b0 : Str) :
    Except Unit (Str × Str × Str) :=
  match m with
  | .file af => applyTags af t0 a0 b0
  | _ => .ok (t0, a0, b0)

/-- The dict literal built at the end of `_extract_track_info`. -/
def mkTrack (f : FSFile) (m : MutagenResult) (tab : Str × Str × Str)
    (rel : PathC) (sz : Nat) : Track :=
  { id := md5Hex (utf8Str (pathStr f.path))
    title := tab.1
    artist := tab.2.1
    album := tab.2.2
    filename := pathName f.path
    path := pathStr f.path
    relativePath := relStr rel
    duration := round2 (fileDuration m)
    size := sz
    format := (lowerStr (suffixOf (pathName f.path))).drop 1 }

/-- `_extract_track_info` after `mutagen.File` produced `m` (not a raise):
any exception from the generic loop, the `relative_to` call or the `stat`
call is caught by the enclosing `try` and yields `None`. -/
def extractFrom (f : FSFile) (m : MutagenResult) : Option Track :=
  match extractTags m (stemOf (pathName f.path)) unknownArtist unknownAlbum,
      relativeTo f.path MUSIC_DIR, f.size? with
  | .ok tab, some rel, some sz => some (mkTrack f m tab rel sz)
  | _, _, _ => none

/-- `MusicScanner._extract_track_info`. -/
def extract (f : FSFile) : Option Track :=
  match f.mutagen with
  | .err => none
  | .noFormat => extractFrom f .noFormat
  | .file af => extractFrom f (.file af)

/-- The `rglob('*')` candidate filter of `scan_directory`: strictly below the
scanned directory and with a supported (lowercased) suffix. -/
def isCandidate (dir : PathC) (f : FSFile) : Bool :=
  pathUnder dir f.path && decide (dir.length < f.path.length)
    && decide (lowerStr (suffixOf (pathName f.path)) ∈ SUPPORTED_FORMATS)

/-- `MusicScanner.scan_directory`: missing root yields `[]`; otherwise every
candidate goes through `extract`, `None` results are dropped and any raise
is caught per file. -/
def scan_directory (fs : FileSystem) (dir : PathC) : List Track :=
  if dir ∈ fs.dirs then (fs.files.filter (isCandidate dir)).filterMap extract
  else []

/-! ### `/api/search` -/

/-- The filter predicate of `search_tracks` for an already-lowercased
non-empty query. -/
def matchesQuery (q : Str) (t : Track) : Bool :=
  containsStr q (lowerStr t.title) || containsStr q (lowerStr t.artist)
    || containsStr q (lowerStr t.album)

/-- `search_tracks`: lowercase the query, return the whole library when it is
falsy (empty), otherwise filter on substring match over the three fields. -/
def search_tracks (lib : List Track) (q : Str) : List Track :=
  let ql := lowerStr q
  if ql = [] then lib else lib.filter (matchesQuery ql)

/-! ### Characterization helpers and sample data -/

/-- The value the generic loop leaves in a field: the conversion of the LAST
tag whose key selects that field, or the default when no key does. -/
def lastOkVal (fl : GField) (tags : Tags) (d : Str) : Str :=
  ((tags.filterMap fun kv =>
      if genFieldOf kv.1 = some fl then (genValStr kv.2).toOption else none).getLast?).getD d

/-- Following the spec's words: the value of the FIRST tag key matching a
field (first occurrence wins), or the default when none matches. -/
def specFirstMatchVal (fl : GField) (tags : Tags) (d : Str) : Str :=
  ((tags.filterMap fun kv =>
      if genFieldOf kv.1 = some fl then (genValStr kv.2).toOption else none).head?).getD d

/-- The external guarantee that `mutagen` only reports nonnegative stream
lengths for the files of a filesystem. -/
def fsLengthsOk (fs : FileSystem) : Prop :=
  ∀ f ∈ fs.files, ∀ l : ℚ, durationMeta f.mutagen = some l → 0 ≤ l

/-- A default track, used only to name the value inside an `Option`. -/
def trackDefault : Track := ⟨[], [], [], [], [], [], [], 0, 0, []⟩

/-- Sample: a well-tagged MP3 under the music root. -/
def fA : FSFile :=
  ⟨["media".data, "music".data, "a.mp3".data],
   .file ⟨.mp3, some ⟨some 10⟩, some [("TIT2".data, .scalar "Song A".data)]⟩,
   some 1000⟩

/-- Sample: the same path as `fA` with entirely different content. -/
def fA2 : FSFile :=
  ⟨["media".data, "music".data, "a.mp3".data],
   .file ⟨.flac, none, some [("TITLE".data, .multi ["Other".data])]⟩,
   some 17⟩

/-- Sample tag mapping with two keys both containing `"title"`. -/
def tagsC1 : Tags :=
  [("Title".data, .scalar "First".data), ("subtitle".data, .scalar "Second".data)]

/-- Sample: an unclassified container carrying `tagsC1`. -/
def afC1 : AudioFile := ⟨.other, some ⟨some 5⟩, some tagsC1⟩

/-- Sample: a generic-container file under the music root. -/
def fC1 : FSFile := ⟨["media".data, "music".data, "b.ogg".data], .file afC1, some 10⟩

/-- Sample: an MP3 whose title tag is a single space. -/
def fC3 : FSFile :=
  ⟨["media".data, "music".data, "c.mp3".data],
   .file ⟨.mp3, none, some [("TIT2".data, .scalar [' '])]⟩, some 1⟩

/-- Sample: a readable but unparseable file outside the music root. -/
def fOut : FSFile := ⟨["tmp".data, "x.mp3".data], .noFormat, some 5⟩

/-- Sample: a file on which `mutagen.File` raises. -/
def fErr : FSFile := ⟨["media".data, "music".data, "e.mp3".data], .err, some 2⟩

/-- Sample: a readable but unparseable file under the music root. -/
def fD : FSFile := ⟨["media".data, "music".data, "d.wav".data], .noFormat, some 7⟩

/-- Sample: an MP3 with no `TIT2` frame but a generically matching key. -/
def afC5 : AudioFile := ⟨.mp3, none, some [("title".data, .scalar "X".data)]⟩

/-- Sample filesystem holding only `fA`. -/
def fs9 : FileSystem := ⟨[MUSIC_DIR], [fA]⟩

/-- Sample two-track library for the search properties. -/
def lib7 : List Track :=
  [⟨"i1".data, "Hello World".data, "Artist A".data, "Album A".data,
    "h.mp3".data, "/m/h.mp3".data, "h.mp3".data, 0, 1, "mp3".data⟩,
   ⟨"i2".data, "Besame Mucho".data, "Artist B".data, "Album B".data,
    "b.mp3".data, "/m/b.mp3".data, "b.mp3".data, 0, 2, "mp3".data⟩]

/-! ### Helper lemmas -/

/-- Known-answer test for the MD5 embedding (RFC 1321 test vector). -/
theorem md5_known_vector :
    md5Hex (utf8Str "abc".data) = "900150983cd24fb0d6963f7d28e17f72".data := by
  decide

/-- Known-answer test for the empty message. -/
theorem md5_empty_vector :
    md5Hex [] = "d41d8cd98f00b204e9800998ecf8427e".data := by
  decide

/-- `filterMap` keeps exactly the elements mapped to `some`. -/
theorem length_filterMap_isSome {α β : Type} (g : α → Option β) :
    ∀ l : List α,
      (l.filterMap g).length = (l.filter fun x => (g x).isSome).length
  | [] => rfl
  | x :: xs => by
    cases hx : g x <;>
      simp [List.filterMap_cons, List.filter_cons, hx,
        length_filterMap_isSome g xs]

/-- A `filterMap` over elements all mapped to `none` is empty. -/
theorem filterMap_eq_nil_of_none {α β : Type} (g : α → Option β) :
    ∀ l : List α, (∀ a ∈ l, g a = none) → l.filterMap g = []
  | [], _ => rfl
  | x :: xs, h => by
    simp [List.filterMap_cons, h x (by simp),
      filterMap_eq_nil_of_none g xs fun a ha => h a (by simp [ha])]

/-- A dropped head only changes the default of `getLast?.getD`. -/
theorem getLastD_cons {α : Type} :
    ∀ (l : List α) (x d : α), ((x :: l).getLast?).getD d = (l.getLast?).getD x
  | [], _, _ => rfl
  | y :: ys, x, d => by
    rw [List.getLast?_cons_cons, getLastD_cons ys y d, getLastD_cons ys y x]

/-- `getD` returns a member of the list or the default. -/
theorem getD_mem_or {α : Type} :
    ∀ (l : List α) (n : Nat) (d : α), l.getD n d ∈ l ∨ l.getD n d = d
  | [], _, _ => Or.inr (by simp)
  | c :: rest, 0, d => Or.inl (by simp)
  | c :: rest, n + 1, d => by
    rw [List.getD_cons_succ]
    rcases getD_mem_or rest n d with h | h
    · exact Or.inl (List.mem_cons_of_mem _ h)
    · exact Or.inr h

/-- Every hex digit is one of the sixteen hex characters. -/
theorem hexDigit_mem (n : Nat) : hexDigit n ∈ hexChars := by
  rcases getD_mem_or hexChars n '0' with h | h
  · exact h
  · rw [hexDigit, h]; decide

/-- `toLEBytes` produces exactly the requested number of bytes. -/
theorem toLEBytes_length : ∀ (k n : Nat), (toLEBytes k n).length = k
  | 0, _ => rfl
  | k + 1, n => by simp [toLEBytes, toLEBytes_length k]

/-- The MD5 digest is sixteen bytes. -/
theorem md5Bytes_length (msg : List Nat) : (md5Bytes msg).length = 16 := by
  unfold md5Bytes stBytes
  simp [toLEBytes_length]

/-- Flattening two hex characters per byte doubles the length. -/
theorem flatten_byteHex_length :
    ∀ bs : List Nat, ((bs.map byteHex).flatten).length = 2 * bs.length
  | [] => rfl
  | b :: rest => by
    simp [byteHex, flatten_byteHex_length rest]
    omega

/-- The hex digest has 32 characters. -/
theorem md5Hex_length (msg : List Nat) : (md5Hex msg).length = 32 := by
  rw [md5Hex, flatten_byteHex_length, md5Bytes_length]

/-- Every character of the hex digest is a hex character. -/
theorem md5Hex_mem_hexChars (msg : List Nat) :
    ∀ c ∈ md5Hex msg, c ∈ hexChars := by
  intro c hc
  rw [md5Hex] at hc
  obtain ⟨l, hl, hcl⟩ := List.mem_flatten.1 hc
  obtain ⟨b, _, rfl⟩ := List.mem_map.1 hl
  simp only [byteHex, List.mem_cons, List.mem_singleton] at hcl
  rcases hcl with rfl | rfl | h
  · exact hexDigit_mem _
  · exact hexDigit_mem _
  · cases h

/-! ### C8, C7, C4 -/

/-- C8: scanning a root directory that does not exist returns the empty
sequence (the code logs a warning and returns; no exception is modelled
because none can escape the early return). -/
theorem C8_missing_root_empty (fs : FileSystem) (d : PathC)
    (hd : d ∉ fs.dirs) : scan_directory fs d = [] := by
  unfold scan_directory
  simp [hd]

/-- Witness for C8 at a concrete filesystem. -/
theorem C8_witness :
    scan_directory ⟨[MUSIC_DIR], [fA]⟩ ["nope".data] = [] :=
  C8_missing_root_empty _ _ (by decide)

/-- C7: the empty query returns the catalog unchanged; a non-empty query
returns exactly the filter of the catalog by case-insensitive substring
match on title, artist or album; the result is always a sublist (hence a
subset) of the catalog. -/
theorem C7_search_spec (lib : List Track) (q : Str) :
    (q = [] → search_tracks lib q = lib) ∧
    (q ≠ [] → search_tracks lib q = lib.filter (matchesQuery (lowerStr q))) ∧
    List.Sublist (search_tracks lib q) lib := by
  refine ⟨?_, ?_, ?_⟩
  · rintro rfl
    rfl
  · intro hq
    have hql : lowerStr q ≠ [] := by
      intro h
      exact hq (List.map_eq_nil_iff.1 h)
    unfold search_tracks
    simp [hql]
  · unfold search_tracks
    by_cases h : lowerStr q = []
    · simp [h]
    · simp only [h, if_false]
      exact List.filter_sublist lib

/-- Witness for C7 at a concrete library and query. -/
theorem C7_witness :
    search_tracks lib7 [] = lib7 ∧
    search_tracks lib7 "hello".data = lib7.filter (matchesQuery (lowerStr "hello".data)) ∧
    List.Sublist (search_tracks lib7 "hello".data) lib7 :=
  ⟨(C7_search_spec lib7 []).1 rfl,
   (C7_search_spec lib7 "hello".data).2.1 (by decide),
   (C7_search_spec lib7 "hello".data).2.2⟩

/-- C4: a file whose extraction fails contributes nothing to a scan and does
not disturb the other files, and a scan returns exactly one record per
candidate whose extraction succeeds (the scan itself is a total function,
so no exception escapes it). -/
theorem C4_isolated_failure :
    (∀ (dirs : List PathC) (pre post : List FSFile) (d : PathC) (f : FSFile),
      extract f = none →
      scan_directory ⟨dirs, pre ++ f :: post⟩ d =
        scan_directory ⟨dirs, pre ++ post⟩ d) ∧
    (∀ (fs : FileSystem) (d : PathC), d ∈ fs.dirs →
      (scan_directory fs d).length =
        ((fs.files.filter (isCandidate d)).filter
          fun g => (extract g).isSome).length) := by
  constructor
  · intro dirs pre post d f hf
    unfold scan_directory
    by_cases hd : d ∈ dirs
    · simp only [hd, if_true]
      cases hc : isCandidate d f <;>
        simp [List.filter_append, List.filter_cons, hc,
          List.filterMap_append, List.filterMap_cons, hf]
    · simp [hd]
  · intro fs d hd
    unfold scan_directory
    simp only [hd, if_true]
    exact length_filterMap_isSome extract _

/-- Witness for C4 at a concrete filesystem with one corrupt file. -/
theorem C4_witness :
    scan_directory ⟨[MUSIC_DIR], [fA] ++ fErr :: [fD]⟩ MUSIC_DIR =
      scan_directory ⟨[MUSIC_DIR], [fA] ++ [fD]⟩ MUSIC_DIR ∧
    (scan_directory ⟨[MUSIC_DIR], [fA, fErr, fD]⟩ MUSIC_DIR).length =
      ((([fA, fErr, fD] : List FSFile).filter (isCandidate MUSIC_DIR)).filter
        fun g => (extract g).isSome).length :=
  ⟨C4_isolated_failure.1 [MUSIC_DIR] [fA] [fD] MUSIC_DIR fErr rfl,
   C4_isolated_failure.2 ⟨[MUSIC_DIR], [fA, fErr, fD]⟩ MUSIC_DIR (by decide)⟩

/-! ### Tag-dispatch lemmas, C5, C3, C1 -/

/-- When the container kind is a named family, `applyTags` reads the three
fixed keys. -/
theorem applyTags_named (af : AudioFile) (kt ka kb t0 a0 b0 : Str)
    (h : namedKeys af.kind = some (kt, ka, kb)) :
    applyTags af t0 a0 b0 =
      .ok (orDefault (getTag af.tags? kt) t0, orDefault (getTag af.tags? ka) a0,
        orDefault (getTag af.tags? kb) b0) := by
  unfold applyTags
  rw [h]

/-- When the container kind is unclassified, `applyTags` runs the generic
loop. -/
theorem applyTags_other (af : AudioFile) (t0 a0 b0 : Str)
    (h : namedKeys af.kind = none) :
    applyTags af t0 a0 b0 = applyGeneric (af.tags?.getD []) t0 a0 b0 := by
  unfold applyTags
  rw [h]

/-- When the parsed object carries no tag mapping, every field keeps its
default. -/
theorem applyTags_noTags (af : AudioFile) (t0 a0 b0 : Str)
    (h : af.tags? = none) : applyTags af t0 a0 b0 = .ok (t0, a0, b0) := by
  unfold applyTags
  cases hk : namedKeys af.kind with
  | none => rw [h]; rfl
  | some ks => simp [h, getTag, orDefault]

/-- A head tag whose key selects no field, or another field, drops out of
`lastOkVal`. -/
theorem lastOkVal_cons_skip (fl : GField) (kv : Str × TagVal) (rest : Tags)
    (d : Str) (h : genFieldOf kv.1 ≠ some fl) :
    lastOkVal fl (kv :: rest) d = lastOkVal fl rest d := by
  unfold lastOkVal
  have hnone :
      (if genFieldOf kv.1 = some fl then (genValStr kv.2).toOption else none)
        = none := by simp [h]
  simp only [List.filterMap_cons, hnone]

/-- A head tag whose key selects the field replaces the default of
`lastOkVal` by its converted value. -/
theorem lastOkVal_cons_match (fl : GField) (kv : Str × TagVal) (rest : Tags)
    (d v : Str) (hg : genFieldOf kv.1 = some fl)
    (hv : genValStr kv.2 = .ok v) :
    lastOkVal fl (kv :: rest) d = lastOkVal fl rest v := by
  unfold lastOkVal
  have hsome :
      (if genFieldOf kv.1 = some fl then (genValStr kv.2).toOption else none)
        = some v := by simp [hg, hv, Except.toOption]
  simp only [List.filterMap_cons, hsome]
  exact getLastD_cons _ _ _

/-- Unfolding the generic loop one tag at a time. -/
theorem applyGeneric_cons (kv : Str × TagVal) (rest : Tags) (t0 a0 b0 : Str) :
    applyGeneric (kv :: rest) t0 a0 b0 =
      (genericStep (t0, a0, b0) kv).bind fun st =>
        applyGeneric rest st.1 st.2.1 st.2.2 := rfl

/-- The generic loop leaves in each field the conversion of the LAST tag
whose key selects that field (later matches overwrite earlier ones). -/
theorem applyGeneric_lastVal :
    ∀ (tags : Tags) (t0 a0 b0 t a b : Str),
      applyGeneric tags t0 a0 b0 = .ok (t, a, b) →
      t = lastOkVal .title tags t0 ∧ a = lastOkVal .artist tags a0 ∧
        b = lastOkVal .album tags b0
  | [], t0, a0, b0, t, a, b, h => by
    injection h with h'
    injection h' with ht h''
    injection h'' with ha hb
    subst ht; subst ha; subst hb
    exact ⟨rfl, rfl, rfl⟩
  | kv :: rest, t0, a0, b0, t, a, b, h => by
    rw [applyGeneric_cons] at h
    cases hg : genFieldOf kv.1 with
    | none =>
      rw [genericStep, hg] at h
      simp only [Except.bind] at h
      obtain ⟨h1, h2, h3⟩ := applyGeneric_lastVal rest t0 a0 b0 t a b h
      refine ⟨?_, ?_, ?_⟩
      · rw [lastOkVal_cons_skip _ kv rest t0 (by rw [hg]; simp)]; exact h1
      · rw [lastOkVal_cons_skip _ kv rest a0 (by rw [hg]; simp)]; exact h2
      · rw [lastOkVal_cons_skip _ kv rest b0 (by rw [hg]; simp)]; exact h3
    | some fl =>
      cases hv : genValStr kv.2 with
      | error e =>
        rw [genericStep, hg] at h
        cases fl <;> simp [hv, Except.map, Except.bind] at h
      | ok v =>
        rw [genericStep, hg] at h
        cases fl with
        | title =>
          simp only [hv, Except.map, Except.bind] at h
          obtain ⟨h1, h2, h3⟩ := applyGeneric_lastVal rest v a0 b0 t a b h
          refine ⟨?_, ?_, ?_⟩
          · rw [lastOkVal_cons_match _ kv rest t0 v hg hv]; exact h1
          · rw [lastOkVal_cons_skip _ kv rest a0 (by rw [hg]; simp)]; exact h2
          · rw [lastOkVal_cons_skip _ kv rest b0 (by rw [hg]; simp)]; exact h3
        | artist =>
          simp only [hv, Except.map, Except.bind] at h
          obtain ⟨h1, h2, h3⟩ := applyGeneric_lastVal rest t0 v b0 t a b h
          refine ⟨?_, ?_, ?_⟩
          · rw [lastOkVal_cons_skip _ kv rest t0 (by rw [hg]; simp)]; exact h1
          · rw [lastOkVal_cons_match _ kv rest a0 v hg hv]; exact h2
          · rw [lastOkVal_cons_skip _ kv rest b0 (by rw [hg]; simp)]; exact h3
        | album =>
          simp only [hv, Except.map, Except.bind] at h
          obtain ⟨h1, h2, h3⟩ := applyGeneric_lastVal rest t0 a0 v t a b h
          refine ⟨?_, ?_, ?_⟩
          · rw [lastOkVal_cons_skip _ kv rest t0 (by rw [hg]; simp)]; exact h1
          · rw [lastOkVal_cons_skip _ kv rest a0 (by rw [hg]; simp)]; exact h2
          · rw [lastOkVal_cons_match _ kv rest b0 v hg hv]; exact h3

/-- C5: whenever the container is one of the three named families, the
extractor reads only that family's fixed keys; the generic key-substring
heuristic runs only for the unclassified fourth kind; and after a
named-scheme miss the placeholder survives (no generic second pass). -/
theorem C5_named_scheme_priority :
    (∀ (af : AudioFile) (kt ka kb t0 a0 b0 : Str),
      namedKeys af.kind = some (kt, ka, kb) →
      applyTags af t0 a0 b0 =
        .ok (orDefault (getTag af.tags? kt) t0,
          orDefault (getTag af.tags? ka) a0,
          orDefault (getTag af.tags? kb) b0)) ∧
    (∀ (af : AudioFile) (t0 a0 b0 : Str), namedKeys af.kind = none →
      applyTags af t0 a0 b0 = applyGeneric (af.tags?.getD []) t0 a0 b0) ∧
    (∀ (af : AudioFile) (kt ka kb t0 a0 b0 : Str),
      namedKeys af.kind = some (kt, ka, kb) → getTag af.tags? kt = none →
      (applyTags af t0 a0 b0).map (fun tab => tab.1) = .ok t0) := by
  refine ⟨applyTags_named, applyTags_other, ?_⟩
  intro af kt ka kb t0 a0 b0 hk hmiss
  rw [applyTags_named af kt ka kb t0 a0 b0 hk]
  simp [hmiss, orDefault, Except.map]

/-- Witness for C5: an MP3 with no `TIT2` frame keeps the placeholder even
though a key `"title"` would match the generic heuristic. -/
theorem C5_witness :
    (applyTags afC5 "dflt".data unknownArtist unknownAlbum).map
      (fun tab => tab.1) = .ok "dflt".data :=
  C5_named_scheme_priority.2.2 afC5 "TIT2".data "TPE1".data "TALB".data
    "dflt".data unknownArtist unknownAlbum rfl (by decide)

/-- C3 as stated is false: a whitespace-only tag value is truthy in Python,
so it overwrites the filename-derived placeholder. Concretely, an MP3 whose
`TIT2` frame holds a single space gets title `" "`, not the stem `"c"`. -/
theorem C3_counterexample :
    (extract fC3).map Track.title = some [' '] ∧
    stemOf (pathName fC3.path) = "c".data ∧ [' '] ≠ "c".data := by
  refine ⟨by decide, by decide, by decide⟩

/-- C3 (amended): in the named-scheme branches an absent or empty tag value
keeps the step-2 placeholder, but any non-empty value — including a
whitespace-only one — overwrites it; in the generic branch any matching tag
value overwrites the placeholder, the empty string included. -/
theorem C3_placeholder_retention :
    (∀ (o : Option Str) (d : Str), o = none ∨ o = some [] →
      orDefault o d = d) ∧
    (∀ (s d : Str), s ≠ [] → orDefault (some s) d = s) ∧
    (∀ (t0 a0 b0 k s : Str), genFieldOf k = some .title →
      applyGeneric [(k, .scalar s)] t0 a0 b0 = .ok (s, a0, b0)) := by
  refine ⟨?_, ?_, ?_⟩
  · rintro o d (rfl | rfl) <;> simp [orDefault]
  · intro s d hs
    simp [orDefault, hs]
  · intro t0 a0 b0 k s hk
    rw [applyGeneric_cons, genericStep, hk]
    rfl

/-- Witness for C3 (amended): the empty and whitespace cases at concrete
values, and the generic branch overwriting with the empty string. -/
theorem C3_witness :
    orDefault (some []) "c".data = "c".data ∧
    orDefault (some [' ']) "c".data = [' '] ∧
    applyGeneric [("Title".data, .scalar [])] "c".data unknownArtist
      unknownAlbum = .ok ([], unknownArtist, unknownAlbum) :=
  ⟨C3_placeholder_retention.1 (some []) "c".data (Or.inr rfl),
   C3_placeholder_retention.2.1 [' '] "c".data (by decide),
   C3_placeholder_retention.2.2 "c".data unknownArtist unknownAlbum
     "Title".data [] (by decide)⟩

/-- C1 as stated is false: with two keys both containing `"title"`, the
extractor returns the value of the LAST matching key, not the first. -/
theorem C1_counterexample :
    (extract fC1).map Track.title = some "Second".data ∧
    specFirstMatchVal .title tagsC1 (stemOf (pathName fC1.path))
      = "First".data ∧
    "Second".data ≠ "First".data := by
  refine ⟨by decide, by decide, by decide⟩

/-- C1 (amended): on an unclassified container the extractor scans all tag
keys case-insensitively for the substrings "title", "artist", "album" and
each field ends up with the value of the LAST matching key (later matches
overwrite earlier ones), taking only the first element of a multi-value
list. -/
theorem C1_generic_last_match (af : AudioFile) (t0 a0 b0 t a b : Str)
    (hk : af.kind = .other)
    (h : applyTags af t0 a0 b0 = .ok (t, a, b)) :
    t = lastOkVal .title (af.tags?.getD []) t0 ∧
    a = lastOkVal .artist (af.tags?.getD []) a0 ∧
    b = lastOkVal .album (af.tags?.getD []) b0 := by
  rw [applyTags_other af t0 a0 b0 (by rw [hk]; rfl)] at h
  exact applyGeneric_lastVal _ t0 a0 b0 t a b h

/-- Witness for C1 (amended) at the two-matching-keys tag mapping. -/
theorem C1_witness :
    "Second".data = lastOkVal .title (afC1.tags?.getD []) "b".data ∧
    unknownArtist = lastOkVal .artist (afC1.tags?.getD []) unknownArtist ∧
    unknownAlbum = lastOkVal .album (afC1.tags?.getD []) unknownAlbum :=
  C1_generic_last_match afC1 "b".data unknownArtist unknownAlbum
    "Second".data unknownArtist unknownAlbum rfl rfl

/-! ### Extraction lemmas, C2, C10 -/

/-- A raise inside `mutagen.File` makes the whole extraction `None`. -/
theorem extract_err (f : FSFile) (h : f.mutagen = .err) : extract f = none := by
  unfold extract
  rw [h]

/-- When `mutagen.File` does not raise, extraction continues with its
result. -/
theorem extract_eq_extractFrom (f : FSFile) (h : f.mutagen ≠ .err) :
    extract f = extractFrom f f.mutagen := by
  unfold extract
  cases hm : f.mutagen with
  | err => exact absurd hm h
  | noFormat => rfl
  | file af => rfl

/-- `extractFrom` succeeds exactly when tag resolution, the relative-path
computation and the size stat all do. -/
theorem extractFrom_eq_some_iff (f : FSFile) (m : MutagenResult) (t : Track) :
    extractFrom f m = some t ↔ ∃ tab rel sz,
      extractTags m (stemOf (pathName f.path)) unknownArtist unknownAlbum
        = .ok tab ∧
      relativeTo f.path MUSIC_DIR = some rel ∧ f.size? = some sz ∧
      t = mkTrack f m tab rel sz := by
  unfold extractFrom
  cases he : extractTags m (stemOf (pathName f.path)) unknownArtist
      unknownAlbum with
  | error e => simp [he]
  | ok tab =>
    cases hr : relativeTo f.path MUSIC_DIR with
    | none => simp [hr]
    | some rel =>
      cases hs : f.size? with
      | none => simp [hs]
      | some sz => simp [he, hr, hs, eq_comm]

/-- A successful extraction comes from a non-raising `mutagen` result, a
successful tag resolution, relative-path computation and stat, and is the
corresponding record. -/
theorem extract_eq_some (f : FSFile) (t : Track) (h : extract f = some t) :
    ∃ tab rel sz,
      extractTags f.mutagen (stemOf (pathName f.path)) unknownArtist
        unknownAlbum = .ok tab ∧
      relativeTo f.path MUSIC_DIR = some rel ∧ f.size? = some sz ∧
      t = mkTrack f f.mutagen tab rel sz := by
  by_cases hm : f.mutagen = .err
  · rw [extract_err f hm] at h
    cases h
  · rw [extract_eq_extractFrom f hm] at h
    exact (extractFrom_eq_some_iff f f.mutagen t).1 h

/-- A file outside the configured music root never yields a record. -/
theorem extract_not_under (f : FSFile)
    (h : pathUnder MUSIC_DIR f.path = false) : extract f = none := by
  have hrel : relativeTo f.path MUSIC_DIR = none := by
    unfold relativeTo
    rw [h]
    rfl
  by_cases hm : f.mutagen = .err
  · exact extract_err f hm
  · rw [extract_eq_extractFrom f hm]
    unfold extractFrom
    cases he : extractTags f.mutagen (stemOf (pathName f.path)) unknownArtist
        unknownAlbum <;> simp [hrel]

/-- Two prefixes of the same list are comparable. -/
theorem pathUnder_comparable :
    ∀ a b c : PathC, pathUnder a c = true → pathUnder b c = true →
      pathUnder a b = true ∨ pathUnder b a = true
  | [], _, _, _, _ => Or.inl rfl
  | _ :: _, [], _, _, _ => Or.inr rfl
  | x :: as, y :: bs, [], h1, _ => by simp [pathUnder] at h1
  | x :: as, y :: bs, z :: cs, h1, h2 => by
    simp only [pathUnder] at h1 h2 ⊢
    by_cases hxz : x = z
    · by_cases hyz : y = z
      · subst hxz
        subst hyz
        simp only [if_pos rfl] at h1 h2 ⊢
        exact pathUnder_comparable as bs cs h1 h2
      · rw [if_neg hyz] at h2
        cases h2
    · rw [if_neg hxz] at h1
      cases h1

/-- Scanning a directory disjoint from the music root yields nothing, no
matter how many readable audio files it holds. -/
theorem scan_outside_music_dir (fs : FileSystem) (d : PathC)
    (h1 : pathUnder MUSIC_DIR d = false) (h2 : pathUnder d MUSIC_DIR = false) :
    scan_directory fs d = [] := by
  unfold scan_directory
  by_cases hd : d ∈ fs.dirs
  · simp only [hd, if_true]
    apply filterMap_eq_nil_of_none
    intro f hf
    have hc := (List.mem_filter.1 hf).2
    have hu : pathUnder d f.path = true := by
      unfold isCandidate at hc
      simp only [Bool.and_eq_true] at hc
      exact hc.1.1
    apply extract_not_under
    cases hmu : pathUnder MUSIC_DIR f.path with
    | false => rfl
    | true =>
      rcases pathUnder_comparable MUSIC_DIR d f.path hmu hu with h | h
      · rw [h1] at h
        cases h
      · rw [h2] at h
        cases h
  · simp [hd]

/-- C10: the record's relative path is computed against the globally
configured music root, not the scan argument — a file outside the root
aborts its own extraction, and scanning a directory disjoint from the root
returns an empty catalog. -/
theorem C10_relative_path_against_music_dir :
    (∀ f : FSFile, pathUnder MUSIC_DIR f.path = false → extract f = none) ∧
    (∀ (fs : FileSystem) (d : PathC), pathUnder MUSIC_DIR d = false →
      pathUnder d MUSIC_DIR = false → scan_directory fs d = []) :=
  ⟨extract_not_under, scan_outside_music_dir⟩

/-- Witness for C10: a readable file in `/tmp` and a scan of `/tmp`. -/
theorem C10_witness :
    extract fOut = none ∧
    scan_directory ⟨[["tmp".data]], [fOut]⟩ ["tmp".data] = [] :=
  ⟨C10_relative_path_against_music_dir.1 fOut (by decide),
   C10_relative_path_against_music_dir.2 ⟨[["tmp".data]], [fOut]⟩ ["tmp".data]
     (by decide) (by decide)⟩

/-- C2 as stated is false: a file that can be read (its stat succeeds) and
whose container merely fails to parse still yields `None` when it lies
outside the configured music root, because the relative-path computation
raises. -/
theorem C2_counterexample :
    extract fOut = none ∧ fOut.size? = some 5 ∧ fOut.mutagen = .noFormat ∧
    pathUnder MUSIC_DIR fOut.path = false := by
  refine ⟨rfl, rfl, rfl, by decide⟩

/-- C2 (amended): extraction returns `None` exactly when `mutagen.File`
raises, the generic tag loop raises, the relative-path computation against
the configured music root fails, or the size stat fails; every file under
the music root whose stat succeeds but whose container cannot be parsed, or
parses with no tags, still yields the fallback record (filename-derived
title, placeholder artist and album, stat size). -/
theorem C2_null_only_on_errors_under_root :
    (∀ f : FSFile, extract f = none ↔
      (f.mutagen = .err ∨
        extractTags f.mutagen (stemOf (pathName f.path)) unknownArtist
          unknownAlbum = .error () ∨
        relativeTo f.path MUSIC_DIR = none ∨ f.size? = none)) ∧
    (∀ (f : FSFile) (sz : Nat), pathUnder MUSIC_DIR f.path = true →
      f.size? = some sz →
      (f.mutagen = .noFormat ∨ ∃ af, f.mutagen = .file af ∧ af.tags? = none) →
      extract f = some (mkTrack f f.mutagen
        (stemOf (pathName f.path), unknownArtist, unknownAlbum)
        (f.path.drop MUSIC_DIR.length) sz)) := by
  constructor
  · intro f
    by_cases hm : f.mutagen = .err
    · simp [extract_err f hm, hm]
    · rw [extract_eq_extractFrom f hm]
      unfold extractFrom
      cases he : extractTags f.mutagen (stemOf (pathName f.path))
          unknownArtist unknownAlbum <;>
        cases hr : relativeTo f.path MUSIC_DIR <;>
        cases hs : f.size? <;>
        simp [he, hr, hs, hm]
  · intro f sz hu hsz hcase
    have hne : f.mutagen ≠ .err := by
      rcases hcase with hm | ⟨af, hm, _⟩ <;> rw [hm] <;> simp
    have he : extractTags f.mutagen (stemOf (pathName f.path)) unknownArtist
        unknownAlbum = .ok (stemOf (pathName f.path), unknownArtist,
          unknownAlbum) := by
      rcases hcase with hm | ⟨af, hm, htags⟩
      · rw [hm]
        rfl
      · rw [hm]
        exact applyTags_noTags af _ _ _ htags
    have hrel : relativeTo f.path MUSIC_DIR
        = some (f.path.drop MUSIC_DIR.length) := by
      unfold relativeTo
      rw [hu]
      rfl
    rw [extract_eq_extractFrom f hne]
    unfold extractFrom
    rw [he, hrel, hsz]

/-- Witness for C2 (amended): the raising file maps to `None` through the
characterization, and the readable unparseable file under the root yields
the fallback record. -/
theorem C2_witness :
    extract fErr = none ∧
    extract fD = some (mkTrack fD fD.mutagen
      (stemOf (pathName fD.path), unknownArtist, unknownAlbum)
      (fD.path.drop MUSIC_DIR.length) 7) :=
  ⟨(C2_null_only_on_errors_under_root.1 fErr).2 (Or.inl rfl),
   C2_null_only_on_errors_under_root.2 fD 7 (by decide) rfl (Or.inl rfl)⟩

/-! ### C6: the identifier -/

/-- C6: the id of an extracted record is the MD5 hex digest of the path
string alone — the same path gives the same id whatever the file content,
the digest has 32 characters, and every character is a hex digit. The id
can change only when the path does; distinctness of ids for distinct paths
is only cryptographically overwhelming, not absolute, and is not claimed. -/
theorem C6_id_pure_function_of_path :
    (∀ (f g : FSFile) (t u : Track), f.path = g.path →
      extract f = some t → extract g = some u → t.id = u.id) ∧
    (∀ (f : FSFile) (t : Track), extract f = some t →
      t.id = md5Hex (utf8Str (pathStr f.path)) ∧ t.id.length = 32 ∧
        ∀ c ∈ t.id, c ∈ hexChars) := by
  have hid : ∀ (f : FSFile) (t : Track), extract f = some t →
      t.id = md5Hex (utf8Str (pathStr f.path)) := by
    intro f t h
    obtain ⟨tab, rel, sz, _, _, _, rfl⟩ := extract_eq_some f t h
    rfl
  constructor
  · intro f g t u hp hf hg
    rw [hid f t hf, hid g u hg, hp]
  · intro f t h
    refine ⟨hid f t h, ?_, ?_⟩
    · rw [hid f t h]
      exact md5Hex_length _
    · rw [hid f t h]
      exact md5Hex_mem_hexChars _

/-- Witness for C6: the same path with different content, tags and size
yields the same 32-character id. -/
theorem C6_witness :
    ((extract fA).getD trackDefault).id
      = ((extract fA2).getD trackDefault).id ∧
    ((extract fA).getD trackDefault).id.length = 32 :=
  ⟨C6_id_pure_function_of_path.1 fA fA2 _ _ rfl rfl rfl,
   (C6_id_pure_function_of_path.2 fA _ rfl).2.1⟩

/-! ### C9: durations and sizes -/

/-- The duration the extractor uses is the exposed metadata, defaulted
to `0`. -/
theorem fileDuration_eq (m : MutagenResult) :
    fileDuration m = (durationMeta m).getD 0 := by
  cases m with
  | err => rfl
  | noFormat => rfl
  | file af =>
    cases haf : af.info? with
    | none => simp [fileDuration, durationMeta, haf]
    | some i =>
      cases hl : i.length? <;> simp [fileDuration, durationMeta, haf, hl]

/-- Half-even rounding of a nonnegative rational is nonnegative. -/
theorem rnd2Int_nonneg (q : ℚ) (h : 0 ≤ q) : 0 ≤ rnd2Int q := by
  unfold rnd2Int
  dsimp only
  have hn : (0:ℤ) ≤ 100 * q.num :=
    mul_nonneg (by norm_num) (Rat.num_nonneg.2 h)
  have hf : 0 ≤ Int.ediv (100 * q.num) (q.den : ℤ) :=
    Int.ediv_nonneg hn (by positivity)
  split_ifs <;> omega

/-- `round(q, 2)` of a nonnegative rational is nonnegative. -/
theorem round2_nonneg (q : ℚ) (h : 0 ≤ q) : 0 ≤ round2 q := by
  unfold round2
  have hz := rnd2Int_nonneg q h
  apply div_nonneg _ (by norm_num)
  exact_mod_cast hz

/-- `round(0, 2) = 0`. -/
theorem round2_zero : round2 0 = 0 := by
  have h0 : rnd2Int 0 = 0 := by decide
  unfold round2
  rw [h0]
  norm_num

/-- C9: under the external guarantee that `mutagen` reports nonnegative
stream lengths, every scanned record has a nonnegative duration and size;
and an extracted record's duration is `0` when the container exposes no
duration metadata, and the metadata rounded to two decimals otherwise. -/
theorem C9_duration_size (fs : FileSystem) (d : PathC)
    (hfs : fsLengthsOk fs) :
    (∀ t ∈ scan_directory fs d, 0 ≤ t.duration ∧ 0 ≤ (t.size : ℤ)) ∧
    (∀ f ∈ fs.files, ∀ t : Track, extract f = some t →
      (durationMeta f.mutagen = none → t.duration = 0) ∧
      (∀ l : ℚ, durationMeta f.mutagen = some l → t.duration = round2 l)) := by
  have hdur : ∀ (f : FSFile) (t : Track), extract f = some t →
      t.duration = round2 ((durationMeta f.mutagen).getD 0) := by
    intro f t h
    obtain ⟨tab, rel, sz, _, _, _, rfl⟩ := extract_eq_some f t h
    show round2 (fileDuration f.mutagen) = _
    rw [fileDuration_eq]
  constructor
  · intro t ht
    unfold scan_directory at ht
    by_cases hd : d ∈ fs.dirs
    · rw [if_pos hd] at ht
      obtain ⟨f, hfm, hext⟩ := List.mem_filterMap.1 ht
      have hff : f ∈ fs.files := (List.mem_filter.1 hfm).1
      constructor
      · rw [hdur f t hext]
        cases hm : durationMeta f.mutagen with
        | none =>
          simp only [Option.getD_none]
          rw [round2_zero]
        | some l =>
          simp only [Option.getD_some]
          exact round2_nonneg l (hfs f hff l hm)
      · exact_mod_cast Nat.zero_le t.size
    · rw [if_neg hd] at ht
      cases ht
  · intro f hff t hext
    constructor
    · intro hm
      rw [hdur f t hext, hm]
      simpa using round2_zero
    · intro l hm
      rw [hdur f t hext, hm]
      rfl

/-- Witness for C9 at a concrete filesystem with one 10-second MP3. -/
theorem C9_witness :
    0 ≤ ((extract fA).getD trackDefault).duration ∧
    ((extract fA).getD trackDefault).duration = round2 10 := by
  have hfs : fsLengthsOk fs9 := by
    intro f hf l hl
    rw [show fs9.files = [fA] from rfl, List.mem_singleton] at hf
    subst hf
    have h10 : durationMeta fA.mutagen = some 10 := by decide
    rw [h10] at hl
    injection hl with hq
    subst hq
    decide
  have hmem : ((extract fA).getD trackDefault)
      ∈ scan_directory fs9 MUSIC_DIR := by
    have hscan : scan_directory fs9 MUSIC_DIR
        = [(extract fA).getD trackDefault] := rfl
    rw [hscan]
    exact List.mem_singleton.2 rfl
  refine ⟨((C9_duration_size fs9 MUSIC_DIR hfs).1 _ hmem).1, ?_⟩
  exact ((C9_duration_size fs9 MUSIC_DIR hfs).2 fA (List.mem_singleton.2 rfl)
    _ rfl).2 10 (by decide)

end MusicServer
